import Mathlib

/-
Verification of the single-neuron training engine of the rrnn-next repository.

The repository contains three trainer variants, all embedded here:
  * `Sales.trainSales`            — lib/nn-sales.ts (mulberry32 PRNG, soft
    validation, full history snapshots, sigmoid hard-coded);
  * `SatOld.trainSatisfaction`    — lib/nn-satisfaction.ts (overwrites the
    global Math.random when a seed is supplied, no validation, history
    entries carry only epoch and error, sigmoid hard-coded);
  * `SatLab.trainSatisfaction`    — the activation-enabled satisfaction
    trainer (mulberry32 PRNG, soft validation, full snapshots, configurable
    activation).

JavaScript numbers are modelled as real numbers; option values that the code
feeds through Number.isFinite are modelled by `JsNum` (a rational or one of
the non-finite values).  The activation kind is a string, as it is at the
JavaScript runtime level, so that the switch statements' default branches
(fall back to sigmoid on unknown kinds) are faithfully representable.
-/

noncomputable section

/-- One training sample: two features and a binary label, as in the fixed
datasets of lib/nn-sales.ts and the satisfaction dataset. -/
structure Sample where
  x1 : ℝ
  x2 : ℝ
  y : ℝ

/-- A history snapshot (lib/types.ts TrainingPoint).  The weights, bias, z
and yHat fields are optional in the TypeScript interface; the old
satisfaction trainer omits them. -/
structure TrainingPoint where
  epoch : ℕ
  error : ℝ
  weights : Option (List ℝ)
  bias : Option ℝ
  z : Option ℝ
  yHat : Option ℝ

instance : Inhabited TrainingPoint := ⟨⟨0, 0, none, none, none, none⟩⟩

/-- The result of a training run (lib/types.ts TrainingResult). -/
structure TrainingResult where
  weights : List ℝ
  bias : ℝ
  prediction : ℝ
  history : List TrainingPoint

/-- The mutable model state of a run: the two weights w[0], w[1] and the
bias b. -/
structure LoopState where
  w1 : ℝ
  w2 : ℝ
  b : ℝ

/-- The per-epoch accumulator: current model state, the accumulated squared
error, and the z / yHat of the last sample processed so far ("snapshot
representativo", initialised to 0 at the start of each epoch). -/
structure EpochAcc where
  ws : LoopState
  totalError : ℝ
  lastZ : ℝ
  lastYHat : ℝ

/-- The sigmoid function, 1 / (1 + e^(-x)), as defined in every trainer
file. -/
def sigmoid (x : ℝ) : ℝ := 1 / (1 + Real.exp (-x))

/-- activationForward from the activation-enabled trainer files: a switch on
the kind string with tanh and relu cases and sigmoid as the default branch
(so any unknown kind falls back to sigmoid). -/
def activationForward (z : ℝ) (fn : String) : ℝ :=
  if fn = "tanh" then Real.tanh z
  else if fn = "relu" then (if z > 0 then z else 0)
  else sigmoid z

/-- activationDerivative from the activation-enabled trainer files:
tanh ↦ 1 - yHat*yHat, relu ↦ (z > 0 ? 1 : 0), default (sigmoid and unknown
kinds) ↦ yHat * (1 - yHat). -/
def activationDerivative (z yHat : ℝ) (fn : String) : ℝ :=
  if fn = "tanh" then 1 - yHat * yHat
  else if fn = "relu" then (if z > 0 then (1 : ℝ) else 0)
  else yHat * (1 - yHat)

/-- The body of the inner (per-sample) loop, shared verbatim by all three
trainers (the sigmoid-only trainers are this code with the activation fixed
to "sigmoid": their inline sigmoidDerivative (yHat) = yHat * (1 - yHat) is
definitionally activationDerivative z yHat "sigmoid"):
forward pass, error, gradient, in-place update, squared-error accumulation,
and the running last-sample z / yHat snapshot. -/
def runSample (lr : ℝ) (act : String) (acc : EpochAcc) (s : Sample) : EpochAcc :=
  let z := s.x1 * acc.ws.w1 + s.x2 * acc.ws.w2 + acc.ws.b
  let yHat := activationForward z act
  let err := s.y - yHat
  let gradient := err * activationDerivative z yHat act
  ⟨⟨acc.ws.w1 + lr * gradient * s.x1,
    acc.ws.w2 + lr * gradient * s.x2,
    acc.ws.b + lr * gradient⟩,
   acc.totalError + err ^ 2, z, yHat⟩

/-- One epoch: fold the per-sample update over the dataset in its fixed
order, starting from totalError = 0, lastZ = 0, lastYHat = 0. -/
def runEpoch (lr : ℝ) (act : String) (samples : List Sample) (st : LoopState) : EpochAcc :=
  samples.foldl (runSample lr act) ⟨st, 0, 0, 0⟩

/-- The outer epoch loop, shared by all three trainers: run the epochs in
order and, whenever `pushAt epoch` holds (epoch % logEvery === 0 in the
code), append the snapshot built by `mkPt` from the state at the end of
that epoch.  Returns the final model state and the history. -/
def trainLoop (step : LoopState → EpochAcc) (mkPt : ℕ → EpochAcc → TrainingPoint)
    (pushAt : ℕ → Bool) : ℕ → ℕ → LoopState → LoopState × List TrainingPoint
  | _, 0, st => (st, [])
  | e, r + 1, st =>
      let acc := step st
      let rest := trainLoop step mkPt pushAt (e + 1) r acc.ws
      (rest.1, if pushAt e then mkPt e acc :: rest.2 else rest.2)

/-- The model state after n epochs of the given step function. -/
def stateIter (step : LoopState → EpochAcc) (st : LoopState) : ℕ → LoopState
  | 0 => st
  | n + 1 => (step (stateIter step st n)).ws

/-- A JavaScript number option value as it reaches Number.isFinite: a finite
(rational) number, NaN, or one of the infinities. -/
inductive JsNum where
  | fin (q : ℚ)
  | nan
  | posInf
  | negInf

/-- Whether a JsNum passes the code's `Number.isFinite(x) && x > 0` test. -/
def JsNum.isPosFinite : JsNum → Bool
  | .fin q => decide (0 < q)
  | _ => false

/-- ToUint32 of an integer seed, i.e. `seed >>> 0` in lib/nn-sales.ts. -/
def seedUint32 (sd : ℤ) : ℕ := (sd.emod 4294967296).toNat

/-- Math.imul: the low 32 bits of the product (on the unsigned-residue
representation used throughout this embedding). -/
def imul32 (a b : ℕ) : ℕ := a * b % 4294967296

/-- The internal counter of the mulberry32 closure after k calls: it starts
at `seed >>> 0` and each call adds 0x6D2B79F5 (kept reduced mod 2^32, which
the bitwise coercions of the source make observationally equivalent). -/
def mulberry32State (sd : ℤ) : ℕ → ℕ
  | 0 => seedUint32 sd
  | k + 1 => (mulberry32State sd k + 0x6D2B79F5) % 4294967296

/-- The output mixing of one mulberry32 call, given the updated counter t:
x = imul(t ^ (t >>> 15), 1 | t); x ^= x + imul(x ^ (x >>> 7), 61 | x);
return (x ^ (x >>> 14)) >>> 0. -/
def mulberryMix (t : ℕ) : ℕ :=
  let x0 := imul32 (t ^^^ (t >>> 15)) (1 ||| t)
  let x1 := x0 ^^^ ((x0 + imul32 (x0 ^^^ (x0 >>> 7)) (61 ||| x0)) % 4294967296)
  x1 ^^^ (x1 >>> 14)

/-- The k-th value (0-indexed) produced by the mulberry32 generator seeded
with sd, divided by 4294967296 into [0, 1). -/
def mulberry32 (sd : ℤ) (k : ℕ) : ℝ :=
  (mulberryMix (mulberry32State sd (k + 1)) : ℝ) / 4294967296

/-- Truncation toward zero, the semantics of JavaScript's % operator on its
quotient. -/
def truncRat (q : ℚ) : ℤ := if 0 ≤ q then ⌊q⌋ else ⌈q⌉

/-- The test `epoch % logEvery === 0` of the old satisfaction trainer, whose
logEvery is an arbitrary (unvalidated) number: e % L in JavaScript is
e - L * trunc(e / L), and is NaN (hence not 0) when L = 0. -/
def jsModEqZero (e : ℕ) (L : ℚ) : Bool :=
  if L = 0 then false else decide ((e : ℚ) - L * (truncRat ((e : ℚ) / L)) = 0)

/-- The state of the process-wide Math.random binding as seen by
lib/nn-satisfaction.ts: either the native generator (an ambient stream and a
position in it) or the seeded sine-based closure the trainer installs, with
its current counter s. -/
inductive MathRandomImpl where
  | native (stream : ℕ → ℝ) (idx : ℕ)
  | sinSeeded (s : ℝ)

/-- Whether the Math.random binding has been replaced by the seeded
closure. -/
def MathRandomImpl.isSinSeeded : MathRandomImpl → Bool
  | .native _ _ => false
  | .sinSeeded _ => true

/-- One draw of the seeded replacement: x = Math.sin(s++) * 10000;
return x - Math.floor(x). -/
def sinFrac (s : ℝ) : ℝ := Real.sin s * 10000 - ⌊Real.sin s * 10000⌋

/-- One call of Math.random under either binding. -/
def MathRandomImpl.next : MathRandomImpl → ℝ × MathRandomImpl
  | .native f i => (f i, .native f (i + 1))
  | .sinSeeded s => (sinFrac s, .sinSeeded (s + 1))

/-- The fixed sales dataset: X = [[2,10],[3,15],[5,20],[1,5],[4,18],[0.5,3]],
y = [0,1,1,0,1,0]. -/
def salesX : List Sample :=
  [⟨2, 10, 0⟩, ⟨3, 15, 1⟩, ⟨5, 20, 1⟩, ⟨1, 5, 0⟩, ⟨4, 18, 1⟩, ⟨0.5, 3, 0⟩]

/-- The fixed satisfaction dataset (identical in both satisfaction trainer
versions): X = [[2,5],[10,4],[25,2],[30,1],[5,4]], y = [1,1,0,0,1]. -/
def satisfactionX : List Sample :=
  [⟨2, 5, 1⟩, ⟨10, 4, 1⟩, ⟨25, 2, 0⟩, ⟨30, 1, 0⟩, ⟨5, 4, 1⟩]

namespace Sales

/-- The options object of lib/nn-sales.ts trainSales. -/
structure Options where
  learningRate : Option JsNum
  epochs : Option JsNum
  logEvery : Option JsNum
  seed : Option ℤ

/-- learningRate after destructuring default 0.01 and the soft validation
`Number.isFinite(raw) && raw > 0 ? raw : 0.01`. -/
def learningRateOf (o : Options) : ℚ :=
  match o.learningRate.getD (.fin (1 / 100)) with
  | .fin q => if 0 < q then q else 1 / 100
  | _ => 1 / 100

/-- epochs after destructuring default 2000 and
`Number.isFinite(raw) ? Math.max(1, Math.floor(raw)) : 2000`. -/
def epochsOf (o : Options) : ℕ :=
  match o.epochs.getD (.fin 2000) with
  | .fin q => (max 1 ⌊q⌋).toNat
  | _ => 2000

/-- logEvery after destructuring default 100 and
`Number.isFinite(raw) ? Math.max(1, Math.floor(raw)) : 100`. -/
def logEveryOf (o : Options) : ℕ :=
  match o.logEvery.getD (.fin 100) with
  | .fin q => (max 1 ⌊q⌋).toNat
  | _ => 100

/-- `const rand = seed !== undefined ? mulberry32(seed) : Math.random`:
the k-indexed stream of values rand will produce. -/
def randOf (o : Options) (ambient : ℕ → ℝ) : ℕ → ℝ :=
  match o.seed with
  | some sd => mulberry32 sd
  | none => ambient

/-- The RNG-initialised parameters: w = [rand(), rand()], b = rand(). -/
def init (o : Options) (ambient : ℕ → ℝ) : LoopState :=
  ⟨randOf o ambient 0, randOf o ambient 1, randOf o ambient 2⟩

/-- The snapshot pushed when epoch % logEvery === 0: epoch, mean squared
error (totalError / X.length, X.length = 6), a copy of the weights, the
bias, and the last sample's z and yHat. -/
def mkPoint (e : ℕ) (acc : EpochAcc) : TrainingPoint :=
  ⟨e, acc.totalError / 6, some [acc.ws.w1, acc.ws.w2], some acc.ws.b,
   some acc.lastZ, some acc.lastYHat⟩

/-- The per-epoch step of trainSales: one pass over the sales dataset with
the normalised learning rate and the trainer's hard-coded sigmoid. -/
def step (o : Options) : LoopState → EpochAcc :=
  runEpoch ((learningRateOf o : ℚ) : ℝ) "sigmoid" salesX

/-- The model state of a trainSales run after k complete epochs. -/
def stateAt (o : Options) (ambient : ℕ → ℝ) (k : ℕ) : LoopState :=
  stateIter (step o) (init o ambient) k

/-- The epoch accumulator at the end of epoch k of a trainSales run. -/
def accAt (o : Options) (ambient : ℕ → ℝ) (k : ℕ) : EpochAcc :=
  step o (stateAt o ambient k)

/-- trainSales of lib/nn-sales.ts.  The ambient argument is the stream the
global Math.random would produce; it is only consulted when no seed is
given.  The trainer's inline sigmoid / sigmoidDerivative pair is the
"sigmoid" instantiation of the shared activation module. -/
def trainSales (o : Options) (ambient : ℕ → ℝ) : TrainingResult :=
  let out := trainLoop (step o) mkPoint
    (fun e => e % logEveryOf o == 0) 0 (epochsOf o) (init o ambient)
  { weights := [out.1.w1, out.1.w2], bias := out.1.b,
    prediction := sigmoid (3.5 * out.1.w1 + 12 * out.1.w2 + out.1.b),
    history := out.2 }

/-- The final model state of a trainSales run. -/
def finalState (o : Options) (ambient : ℕ → ℝ) : LoopState :=
  stateAt o ambient (epochsOf o)

end Sales

namespace SatOld

/-- The options object of lib/nn-satisfaction.ts trainSatisfaction (no
validation is applied to these, so they are used as plain numbers). -/
structure Options where
  learningRate : Option ℚ
  epochs : Option ℚ
  logEvery : Option ℚ
  seed : Option ℤ

/-- learningRate with destructuring default 0.01 (no further validation). -/
def learningRateOf (o : Options) : ℚ := o.learningRate.getD (1 / 100)

/-- epochs with destructuring default 10000 (no further validation). -/
def epochsQOf (o : Options) : ℚ := o.epochs.getD 10000

/-- logEvery with destructuring default 100 (no further validation). -/
def logEveryQOf (o : Options) : ℚ := o.logEvery.getD 100

/-- The number of iterations of `for (epoch = 0; epoch < epochs; epoch++)`
for a finite epochs value: the smallest integer ≥ epochs, clipped at 0. -/
def loopCountOf (o : Options) : ℕ := (⌈epochsQOf o⌉).toNat

/-- The minimal snapshot of the old trainer: only epoch and
totalError / X.length (X.length = 5); no weights, bias, z or yHat. -/
def mkPoint (e : ℕ) (acc : EpochAcc) : TrainingPoint :=
  ⟨e, acc.totalError / 5, none, none, none, none⟩

/-- The Math.random binding after the seed check: when a seed is supplied
the code executes
`Math.random = () => { const x = Math.sin(s++) * 10000; return x - Math.floor(x); }`,
replacing the process-wide binding; otherwise the current binding is kept. -/
def rngAfterSeedCheck (o : Options) (mathRandom : MathRandomImpl) : MathRandomImpl :=
  match o.seed with
  | some sd => MathRandomImpl.sinSeeded (sd : ℝ)
  | none => mathRandom

/-- The RNG-initialised parameters, drawn by three Math.random() calls:
w = [Math.random(), Math.random()], b = Math.random(). -/
def init (o : Options) (mathRandom : MathRandomImpl) : LoopState :=
  ⟨(rngAfterSeedCheck o mathRandom).next.1,
   (rngAfterSeedCheck o mathRandom).next.2.next.1,
   (rngAfterSeedCheck o mathRandom).next.2.next.2.next.1⟩

/-- The Math.random binding as it stands after the three initial draws
(and after the whole call, since the rest of the run does not call
Math.random). -/
def postRandom (o : Options) (mathRandom : MathRandomImpl) : MathRandomImpl :=
  (rngAfterSeedCheck o mathRandom).next.2.next.2.next.2

/-- The per-epoch step of the old trainSatisfaction: one pass over the
satisfaction dataset with the (unvalidated) learning rate and the
trainer's hard-coded sigmoid. -/
def step (o : Options) : LoopState → EpochAcc :=
  runEpoch ((learningRateOf o : ℚ) : ℝ) "sigmoid" satisfactionX

/-- The model state of an old trainSatisfaction run after k complete
epochs. -/
def stateAt (o : Options) (mathRandom : MathRandomImpl) (k : ℕ) : LoopState :=
  stateIter (step o) (init o mathRandom) k

/-- The epoch accumulator at the end of epoch k of an old trainSatisfaction
run. -/
def accAt (o : Options) (mathRandom : MathRandomImpl) (k : ℕ) : EpochAcc :=
  step o (stateAt o mathRandom k)

/-- trainSatisfaction of lib/nn-satisfaction.ts.  It is passed the current
Math.random binding and also returns the binding as it stands after the
call (the call mutates the process-wide binding when a seed is given). -/
def trainSatisfaction (o : Options) (mathRandom : MathRandomImpl) :
    TrainingResult × MathRandomImpl :=
  let out := trainLoop (step o) mkPoint
    (fun e => jsModEqZero e (logEveryQOf o)) 0 (loopCountOf o) (init o mathRandom)
  ({ weights := [out.1.w1, out.1.w2], bias := out.1.b,
     prediction := sigmoid (12 * out.1.w1 + 3 * out.1.w2 + out.1.b),
     history := out.2 }, postRandom o mathRandom)

/-- The final model state of an old trainSatisfaction run. -/
def finalState (o : Options) (mathRandom : MathRandomImpl) : LoopState :=
  stateAt o mathRandom (loopCountOf o)

end SatOld

namespace SatLab

/-- The options object of the activation-enabled satisfaction trainer. -/
structure Options where
  learningRate : Option JsNum
  epochs : Option JsNum
  logEvery : Option JsNum
  seed : Option ℤ
  activation : Option String

/-- learningRate after destructuring default 0.01 and soft validation. -/
def learningRateOf (o : Options) : ℚ :=
  match o.learningRate.getD (.fin (1 / 100)) with
  | .fin q => if 0 < q then q else 1 / 100
  | _ => 1 / 100

/-- epochs after destructuring default 2000 and soft validation. -/
def epochsOf (o : Options) : ℕ :=
  match o.epochs.getD (.fin 2000) with
  | .fin q => (max 1 ⌊q⌋).toNat
  | _ => 2000

/-- logEvery after destructuring default 100 and soft validation. -/
def logEveryOf (o : Options) : ℕ :=
  match o.logEvery.getD (.fin 100) with
  | .fin q => (max 1 ⌊q⌋).toNat
  | _ => 100

/-- activation with destructuring default "sigmoid". -/
def activationOf (o : Options) : String := o.activation.getD "sigmoid"

/-- `const rand = seed !== undefined ? mulberry32(seed) : Math.random`. -/
def randOf (o : Options) (ambient : ℕ → ℝ) : ℕ → ℝ :=
  match o.seed with
  | some sd => mulberry32 sd
  | none => ambient

/-- w = [rand(), rand()], b = rand(). -/
def init (o : Options) (ambient : ℕ → ℝ) : LoopState :=
  ⟨randOf o ambient 0, randOf o ambient 1, randOf o ambient 2⟩

/-- The full snapshot: epoch, totalError / X.length (X.length = 5), a
defensive copy of the weights, the bias, and the last sample's z / yHat. -/
def mkPoint (e : ℕ) (acc : EpochAcc) : TrainingPoint :=
  ⟨e, acc.totalError / 5, some [acc.ws.w1, acc.ws.w2], some acc.ws.b,
   some acc.lastZ, some acc.lastYHat⟩

/-- The per-epoch step of the activation-enabled trainSatisfaction: one
pass over the satisfaction dataset with the normalised learning rate and
the selected activation. -/
def step (o : Options) : LoopState → EpochAcc :=
  runEpoch ((learningRateOf o : ℚ) : ℝ) (activationOf o) satisfactionX

/-- The model state after k complete epochs. -/
def stateAt (o : Options) (ambient : ℕ → ℝ) (k : ℕ) : LoopState :=
  stateIter (step o) (init o ambient) k

/-- The epoch accumulator at the end of epoch k. -/
def accAt (o : Options) (ambient : ℕ → ℝ) (k : ℕ) : EpochAcc :=
  step o (stateAt o ambient k)

/-- trainSatisfaction of the activation-enabled satisfaction trainer
(does not touch the global Math.random; the ambient stream is only
consulted when no seed is given). -/
def trainSatisfaction (o : Options) (ambient : ℕ → ℝ) : TrainingResult :=
  let out := trainLoop (step o) mkPoint
    (fun e => e % logEveryOf o == 0) 0 (epochsOf o) (init o ambient)
  { weights := [out.1.w1, out.1.w2], bias := out.1.b,
    prediction :=
      activationForward (12 * out.1.w1 + 3 * out.1.w2 + out.1.b) (activationOf o),
    history := out.2 }

/-- The final model state. -/
def finalState (o : Options) (ambient : ℕ → ℝ) : LoopState :=
  stateAt o ambient (epochsOf o)

end SatLab

end

theorem stateIter_succ_left (step : LoopState → EpochAcc) (st : LoopState) (n : ℕ) :
    stateIter step st (n + 1) = stateIter step ((step st).ws) n := by
  induction n with
  | zero => rfl
  | succ n ih =>
      have h : stateIter step st (n + 1 + 1) = (step (stateIter step st (n + 1))).ws := rfl
      rw [h, ih]
      rfl

theorem trainLoop_fst (step : LoopState → EpochAcc) (mkPt : ℕ → EpochAcc → TrainingPoint)
    (pushAt : ℕ → Bool) (r : ℕ) : ∀ (e : ℕ) (st : LoopState),
    (trainLoop step mkPt pushAt e r st).1 = stateIter step st r := by
  induction r with
  | zero => intro e st; rfl
  | succ r ih =>
      intro e st
      simp only [trainLoop]
      rw [ih, ← stateIter_succ_left]

theorem trainLoop_snd (step : LoopState → EpochAcc) (mkPt : ℕ → EpochAcc → TrainingPoint)
    (pushAt : ℕ → Bool) (r : ℕ) : ∀ (e : ℕ) (st : LoopState),
    (trainLoop step mkPt pushAt e r st).2 =
      ((List.range r).filter (fun k => pushAt (e + k))).map
        (fun k => mkPt (e + k) (step (stateIter step st k))) := by
  induction r with
  | zero => intro e st; simp [trainLoop]
  | succ r ih =>
      intro e st
      have hadd : ∀ k : ℕ, e + 1 + k = e + (k + 1) := fun k => by omega
      have hp2 : (fun k => pushAt (e + 1 + k)) = (fun k => pushAt (e + (k + 1))) :=
        funext fun k => by rw [hadd k]
      have hf2 : (fun k => mkPt (e + 1 + k) (step (stateIter step ((step st).ws) k))) =
          (fun k => mkPt (e + (k + 1)) (step (stateIter step st (k + 1)))) :=
        funext fun k => by rw [hadd k, ← stateIter_succ_left]
      have hcomp : ((fun k => mkPt (e + k) (step (stateIter step st k))) ∘ Nat.succ) =
          (fun k => mkPt (e + (k + 1)) (step (stateIter step st (k + 1)))) := by
        funext k
        simp only [Function.comp]
      have hpcomp : ((fun k => pushAt (e + k)) ∘ Nat.succ) =
          (fun k => pushAt (e + (k + 1))) := by
        funext k
        simp only [Function.comp]
      simp only [trainLoop]
      rw [ih (e + 1) ((step st).ws), hp2, hf2]
      rw [List.range_succ_eq_map, List.filter_cons, List.filter_map, hpcomp]
      by_cases hp : pushAt e = true
      · rw [show pushAt (e + 0) = pushAt e from rfl, hp]
        simp only [if_true, eq_self_iff_true, List.map_cons, List.map_map, hcomp]
        rfl
      · have h0 : pushAt e = false := by simpa using hp
        rw [show pushAt (e + 0) = pushAt e from rfl, h0]
        simp only [Bool.false_eq_true, if_false, List.map_map, hcomp]

theorem length_filter_range_mod (L : ℕ) (n : ℕ) (hn : 1 ≤ n) :
    ((List.range n).filter (fun k => k % L == 0)).length = (n - 1) / L + 1 := by
  induction n, hn using Nat.le_induction with
  | base =>
      rw [show List.range 1 = [0] from rfl]
      simp
  | succ n hn ih =>
      rw [List.range_succ, List.filter_append, List.length_append, ih]
      have hn1 : n - 1 + 1 = n := by omega
      have hdiv : n / L = (n - 1) / L + if L ∣ n then 1 else 0 := by
        conv_lhs => rw [← hn1]
        rw [Nat.succ_div, hn1]
      have hsing : (List.filter (fun k => k % L == 0) [n]).length =
          if L ∣ n then 1 else 0 := by
        by_cases hd : L ∣ n
        · have hm : n % L = 0 := Nat.dvd_iff_mod_eq_zero.mp hd
          simp [List.filter, hm, hd]
        · have hm : n % L ≠ 0 := fun hc => hd (Nat.dvd_iff_mod_eq_zero.mpr hc)
          have hb : (n % L == 0) = false := by simp [hm]
          simp [List.filter, hb, hd]
      rw [hsing, show n + 1 - 1 = n from by omega, hdiv]
      omega

theorem head_filter_range_mod (L : ℕ) (n : ℕ) (hn : 1 ≤ n) :
    ((List.range n).filter (fun k => k % L == 0)).head? = some 0 := by
  obtain ⟨m, rfl⟩ : ∃ m, n = m + 1 := ⟨n - 1, by omega⟩
  rw [List.range_succ_eq_map, List.filter_cons]
  simp

theorem jsModEqZero_natCast (e L : ℕ) (hL : 1 ≤ L) :
    jsModEqZero e (L : ℚ) = (e % L == 0) := by
  have hLne : ((L : ℚ)) ≠ 0 := by
    exact_mod_cast Nat.pos_iff_ne_zero.mp (by omega)
  have h0 : (0:ℚ) ≤ (e : ℚ) / (L : ℚ) := by positivity
  have hfloor : (⌊(e : ℚ) / (L : ℚ)⌋ : ℤ) = ((e / L : ℕ) : ℤ) := by
    rw [← Int.natCast_floor_eq_floor h0, Nat.floor_div_nat, Nat.floor_natCast]
  have hsub : (e : ℚ) - (L : ℚ) * ((e / L : ℕ) : ℚ) = ((e % L : ℕ) : ℚ) := by
    have h := Nat.div_add_mod e L
    have hcast : (L : ℚ) * ((e / L : ℕ) : ℚ) + ((e % L : ℕ) : ℚ) = (e : ℚ) := by
      exact_mod_cast congrArg (fun n : ℕ => (n : ℚ)) h
    linarith
  rw [jsModEqZero, if_neg hLne, truncRat, if_pos h0, hfloor, Int.cast_natCast, hsub]
  rw [Bool.eq_iff_iff]
  simp only [decide_eq_true_eq, beq_iff_eq, Nat.cast_eq_zero]

theorem sales_epochsOf_pos (o : Sales.Options) : 1 ≤ Sales.epochsOf o := by
  rw [Sales.epochsOf]
  generalize o.epochs.getD (.fin 2000) = j
  cases j with
  | fin q =>
      show 1 ≤ (max 1 ⌊q⌋).toNat
      have h : (1:ℤ) ≤ max 1 ⌊q⌋ := le_max_left _ _
      omega
  | nan => decide
  | posInf => decide
  | negInf => decide

theorem sales_logEveryOf_pos (o : Sales.Options) : 1 ≤ Sales.logEveryOf o := by
  rw [Sales.logEveryOf]
  generalize o.logEvery.getD (.fin 100) = j
  cases j with
  | fin q =>
      show 1 ≤ (max 1 ⌊q⌋).toNat
      have h : (1:ℤ) ≤ max 1 ⌊q⌋ := le_max_left _ _
      omega
  | nan => decide
  | posInf => decide
  | negInf => decide

theorem satLab_epochsOf_pos (o : SatLab.Options) : 1 ≤ SatLab.epochsOf o := by
  rw [SatLab.epochsOf]
  generalize o.epochs.getD (.fin 2000) = j
  cases j with
  | fin q =>
      show 1 ≤ (max 1 ⌊q⌋).toNat
      have h : (1:ℤ) ≤ max 1 ⌊q⌋ := le_max_left _ _
      omega
  | nan => decide
  | posInf => decide
  | negInf => decide

theorem satLab_logEveryOf_pos (o : SatLab.Options) : 1 ≤ SatLab.logEveryOf o := by
  rw [SatLab.logEveryOf]
  generalize o.logEvery.getD (.fin 100) = j
  cases j with
  | fin q =>
      show 1 ≤ (max 1 ⌊q⌋).toNat
      have h : (1:ℤ) ≤ max 1 ⌊q⌋ := le_max_left _ _
      omega
  | nan => decide
  | posInf => decide
  | negInf => decide

theorem sales_history_eq (o : Sales.Options) (amb : ℕ → ℝ) :
    (Sales.trainSales o amb).history =
      ((List.range (Sales.epochsOf o)).filter (fun k => k % Sales.logEveryOf o == 0)).map
        (fun k => Sales.mkPoint k (Sales.accAt o amb k)) := by
  show (trainLoop _ _ _ 0 _ _).2 = _
  rw [trainLoop_snd]
  simp only [Nat.zero_add, Sales.accAt, Sales.stateAt]

theorem sales_weights_eq (o : Sales.Options) (amb : ℕ → ℝ) :
    (Sales.trainSales o amb).weights =
      [(Sales.finalState o amb).w1, (Sales.finalState o amb).w2] := by
  show [(trainLoop _ _ _ 0 _ _).1.w1, (trainLoop _ _ _ 0 _ _).1.w2] = _
  rw [trainLoop_fst]
  rfl

theorem sales_bias_eq (o : Sales.Options) (amb : ℕ → ℝ) :
    (Sales.trainSales o amb).bias = (Sales.finalState o amb).b := by
  show (trainLoop _ _ _ 0 _ _).1.b = _
  rw [trainLoop_fst]
  rfl

theorem sales_prediction_eq (o : Sales.Options) (amb : ℕ → ℝ) :
    (Sales.trainSales o amb).prediction =
      sigmoid (3.5 * (Sales.finalState o amb).w1 + 12 * (Sales.finalState o amb).w2 +
        (Sales.finalState o amb).b) := by
  show sigmoid (3.5 * (trainLoop _ _ _ 0 _ _).1.w1 + 12 * (trainLoop _ _ _ 0 _ _).1.w2 +
    (trainLoop _ _ _ 0 _ _).1.b) = _
  rw [trainLoop_fst]
  rfl

theorem satLab_history_eq (o : SatLab.Options) (amb : ℕ → ℝ) :
    (SatLab.trainSatisfaction o amb).history =
      ((List.range (SatLab.epochsOf o)).filter (fun k => k % SatLab.logEveryOf o == 0)).map
        (fun k => SatLab.mkPoint k (SatLab.accAt o amb k)) := by
  show (trainLoop _ _ _ 0 _ _).2 = _
  rw [trainLoop_snd]
  simp only [Nat.zero_add, SatLab.accAt, SatLab.stateAt]

theorem satLab_weights_eq (o : SatLab.Options) (amb : ℕ → ℝ) :
    (SatLab.trainSatisfaction o amb).weights =
      [(SatLab.finalState o amb).w1, (SatLab.finalState o amb).w2] := by
  show [(trainLoop _ _ _ 0 _ _).1.w1, (trainLoop _ _ _ 0 _ _).1.w2] = _
  rw [trainLoop_fst]
  rfl

theorem satLab_bias_eq (o : SatLab.Options) (amb : ℕ → ℝ) :
    (SatLab.trainSatisfaction o amb).bias = (SatLab.finalState o amb).b := by
  show (trainLoop _ _ _ 0 _ _).1.b = _
  rw [trainLoop_fst]
  rfl

theorem satLab_prediction_eq (o : SatLab.Options) (amb : ℕ → ℝ) :
    (SatLab.trainSatisfaction o amb).prediction =
      activationForward (12 * (SatLab.finalState o amb).w1 +
        3 * (SatLab.finalState o amb).w2 + (SatLab.finalState o amb).b)
        (SatLab.activationOf o) := by
  show activationForward (12 * (trainLoop _ _ _ 0 _ _).1.w1 +
    3 * (trainLoop _ _ _ 0 _ _).1.w2 + (trainLoop _ _ _ 0 _ _).1.b) _ = _
  rw [trainLoop_fst]
  rfl

theorem satOld_loopCount_natCast (o : SatOld.Options) (E : ℕ)
    (hE : o.epochs = some ((E : ℕ) : ℚ)) : SatOld.loopCountOf o = E := by
  rw [SatOld.loopCountOf, SatOld.epochsQOf, hE, Option.getD_some, Int.ceil_natCast]
  exact Int.toNat_natCast E

theorem satOld_pushAt_natCast (o : SatOld.Options) (L : ℕ) (hL1 : 1 ≤ L)
    (hL : o.logEvery = some ((L : ℕ) : ℚ)) :
    (fun e => jsModEqZero e (SatOld.logEveryQOf o)) = (fun e => e % L == 0) := by
  funext e
  rw [SatOld.logEveryQOf, hL, Option.getD_some, jsModEqZero_natCast e L hL1]

theorem satOld_history_eq (o : SatOld.Options) (m : MathRandomImpl) (L : ℕ) (hL1 : 1 ≤ L)
    (hL : o.logEvery = some ((L : ℕ) : ℚ)) :
    (SatOld.trainSatisfaction o m).1.history =
      ((List.range (SatOld.loopCountOf o)).filter (fun k => k % L == 0)).map
        (fun k => SatOld.mkPoint k (SatOld.accAt o m k)) := by
  show (trainLoop _ _ _ 0 _ _).2 = _
  rw [satOld_pushAt_natCast o L hL1 hL, trainLoop_snd]
  simp only [Nat.zero_add, SatOld.accAt, SatOld.stateAt]

theorem satOld_weights_eq (o : SatOld.Options) (m : MathRandomImpl) :
    (SatOld.trainSatisfaction o m).1.weights =
      [(SatOld.finalState o m).w1, (SatOld.finalState o m).w2] := by
  show [(trainLoop _ _ _ 0 _ _).1.w1, (trainLoop _ _ _ 0 _ _).1.w2] = _
  rw [trainLoop_fst]
  rfl

theorem satOld_bias_eq (o : SatOld.Options) (m : MathRandomImpl) :
    (SatOld.trainSatisfaction o m).1.bias = (SatOld.finalState o m).b := by
  show (trainLoop _ _ _ 0 _ _).1.b = _
  rw [trainLoop_fst]
  rfl

theorem satOld_prediction_eq (o : SatOld.Options) (m : MathRandomImpl) :
    (SatOld.trainSatisfaction o m).1.prediction =
      sigmoid (12 * (SatOld.finalState o m).w1 + 3 * (SatOld.finalState o m).w2 +
        (SatOld.finalState o m).b) := by
  show sigmoid (12 * (trainLoop _ _ _ 0 _ _).1.w1 + 3 * (trainLoop _ _ _ 0 _ _).1.w2 +
    (trainLoop _ _ _ 0 _ _).1.b) = _
  rw [trainLoop_fst]
  rfl

theorem sigmoid_nonneg (x : ℝ) : 0 ≤ sigmoid x := by
  rw [sigmoid]
  have h : 0 < 1 + Real.exp (-x) := by positivity
  positivity

theorem sigmoid_le_one (x : ℝ) : sigmoid x ≤ 1 := by
  rw [sigmoid]
  have h : 0 < 1 + Real.exp (-x) := by positivity
  rw [div_le_one h]
  have := Real.exp_pos (-x)
  linarith

/-- C1: for every configuration in which a seed is supplied, two separate
calls to trainSales or trainSatisfaction (either version) with the same
options return identical weights, bias, prediction and history: the result
does not depend on the ambient Math.random stream (respectively on the
incoming Math.random binding). -/
theorem claim1_seeded_determinism :
    (∀ (o : Sales.Options) (s : ℤ) (amb1 amb2 : ℕ → ℝ), o.seed = some s →
      Sales.trainSales o amb1 = Sales.trainSales o amb2) ∧
    (∀ (o : SatOld.Options) (s : ℤ) (m1 m2 : MathRandomImpl), o.seed = some s →
      (SatOld.trainSatisfaction o m1).1 = (SatOld.trainSatisfaction o m2).1) ∧
    (∀ (o : SatLab.Options) (s : ℤ) (amb1 amb2 : ℕ → ℝ), o.seed = some s →
      SatLab.trainSatisfaction o amb1 = SatLab.trainSatisfaction o amb2) := by
  refine ⟨?_, ?_, ?_⟩
  · intro o s amb1 amb2 hs
    have hr : Sales.init o amb1 = Sales.init o amb2 := by
      simp only [Sales.init, Sales.randOf, hs]
    rw [Sales.trainSales, Sales.trainSales, hr]
  · intro o s m1 m2 hs
    have hr : SatOld.init o m1 = SatOld.init o m2 := by
      simp only [SatOld.init, SatOld.rngAfterSeedCheck, hs]
    rw [SatOld.trainSatisfaction, SatOld.trainSatisfaction, hr]
  · intro o s amb1 amb2 hs
    have hr : SatLab.init o amb1 = SatLab.init o amb2 := by
      simp only [SatLab.init, SatLab.randOf, hs]
    rw [SatLab.trainSatisfaction, SatLab.trainSatisfaction, hr]

/-- C1 witness: a concrete seeded run of each trainer is unchanged when the
ambient random source changes. -/
theorem claim1_seeded_determinism_check :
    Sales.trainSales ⟨none, none, none, some 5⟩ (fun _ => 0) =
      Sales.trainSales ⟨none, none, none, some 5⟩ (fun _ => 1) :=
  claim1_seeded_determinism.1 ⟨none, none, none, some 5⟩ 5 (fun _ => 0) (fun _ => 1) rfl

/-- C2: the old satisfaction trainer mutates the process-wide Math.random
binding when a seed is supplied: called with the native binding and
seed 42, it returns with the binding replaced by the seeded sine-based
closure (the claim says the binding is never replaced nor invoked). -/
theorem claim2_global_random_mutated :
    ((SatOld.trainSatisfaction ⟨none, some 1, some 1, some 42⟩
        (MathRandomImpl.native (fun _ => 0) 0)).2).isSinSeeded = true ∧
    (MathRandomImpl.native (fun _ => (0 : ℝ)) 0).isSinSeeded = false :=
  ⟨rfl, rfl⟩

/-- C3: the per-sample engine step computes z, yHat, error and gradient by
the specified formulas and updates the weights, bias and accumulated
squared error in place; the inner loop is a left fold, so each sample's
update is visible to the next sample of the same epoch, which starts from
totalError = 0. -/
theorem claim3_per_sample_update :
    (∀ (lr : ℝ) (act : String) (acc : EpochAcc) (s : Sample),
      runSample lr act acc s =
        (let z := s.x1 * acc.ws.w1 + s.x2 * acc.ws.w2 + acc.ws.b
         let yHat := activationForward z act
         let err := s.y - yHat
         let grad := err * activationDerivative z yHat act
         { ws := { w1 := acc.ws.w1 + lr * grad * s.x1, w2 := acc.ws.w2 + lr * grad * s.x2,
                   b := acc.ws.b + lr * grad },
           totalError := acc.totalError + err ^ 2, lastZ := z, lastYHat := yHat })) ∧
    (∀ (lr : ℝ) (act : String) (acc : EpochAcc) (s : Sample) (rest : List Sample),
      List.foldl (runSample lr act) acc (s :: rest) =
        List.foldl (runSample lr act) (runSample lr act acc s) rest) ∧
    (∀ (lr : ℝ) (act : String) (samples : List Sample) (st : LoopState),
      runEpoch lr act samples st = List.foldl (runSample lr act) ⟨st, 0, 0, 0⟩ samples) := by
  exact ⟨fun _ _ _ _ => rfl, fun _ _ _ _ _ => rfl, fun _ _ _ _ => rfl⟩

/-- C7: the activation module matches the specified closed forms (sigmoid,
tanh, relu and their derivatives), takes the specified values at the spec's
sample points, and evaluates any unknown kind as sigmoid. -/
theorem claim7_activation_module :
    (∀ z : ℝ, activationForward z "sigmoid" = 1 / (1 + Real.exp (-z))) ∧
    (∀ z yHat : ℝ, activationDerivative z yHat "sigmoid" = yHat * (1 - yHat)) ∧
    (∀ z : ℝ, activationForward z "tanh" = Real.tanh z) ∧
    (∀ z yHat : ℝ, activationDerivative z yHat "tanh" = 1 - yHat ^ 2) ∧
    (∀ z : ℝ, activationForward z "relu" = max 0 z) ∧
    (∀ z yHat : ℝ, activationDerivative z yHat "relu" = if z > 0 then 1 else 0) ∧
    activationForward 0 "sigmoid" = 0.5 ∧
    activationForward 0 "tanh" = 0 ∧
    activationForward (-1) "relu" = 0 ∧
    activationForward 2 "relu" = 2 ∧
    (∀ (z : ℝ) (kind : String), kind ≠ "tanh" → kind ≠ "relu" →
      activationForward z kind = sigmoid z ∧
      ∀ yHat : ℝ, activationDerivative z yHat kind = yHat * (1 - yHat)) := by
  refine ⟨fun z => rfl, fun z yHat => rfl, fun z => rfl, ?_, ?_, fun z yHat => rfl,
    ?_, ?_, ?_, ?_, ?_⟩
  · intro z yHat
    rw [show activationDerivative z yHat "tanh" = 1 - yHat * yHat from rfl]
    ring
  · intro z
    rw [show activationForward z "relu" = (if z > 0 then z else 0) from rfl]
    rcases le_or_lt z 0 with h | h
    · rw [if_neg (not_lt.mpr h), max_eq_left h]
    · rw [if_pos h, max_eq_right h.le]
  · rw [show activationForward 0 "sigmoid" = sigmoid 0 from rfl, sigmoid]
    rw [neg_zero, Real.exp_zero]
    norm_num
  · rw [show activationForward 0 "tanh" = Real.tanh 0 from rfl, Real.tanh_zero]
  · rw [show activationForward (-1 : ℝ) "relu" = (if (-1 : ℝ) > 0 then (-1 : ℝ) else 0) from rfl]
    norm_num
  · rw [show activationForward 2 "relu" = (if (2 : ℝ) > 0 then (2 : ℝ) else 0) from rfl]
    norm_num
  · intro z kind h1 h2
    constructor
    · rw [activationForward, if_neg h1, if_neg h2]
    · intro yHat
      rw [activationDerivative, if_neg h1, if_neg h2]

/-- C7 witness: an unknown activation kind is evaluated as sigmoid. -/
theorem claim7_activation_module_check :
    activationForward 1 "banana" = sigmoid 1 ∧
    ∀ yHat : ℝ, activationDerivative 1 yHat "banana" = yHat * (1 - yHat) :=
  claim7_activation_module.2.2.2.2.2.2.2.2.2.2 1 "banana" (by decide) (by decide)

/-- C8: on a relu sample whose pre-activation z is non-positive the
derivative is 0, so the gradient vanishes and the per-sample update leaves
the weights and the bias exactly unchanged. -/
theorem claim8_relu_zero_gradient (lr : ℝ) (acc : EpochAcc) (s : Sample)
    (h : s.x1 * acc.ws.w1 + s.x2 * acc.ws.w2 + acc.ws.b ≤ 0) :
    activationDerivative (s.x1 * acc.ws.w1 + s.x2 * acc.ws.w2 + acc.ws.b)
      (activationForward (s.x1 * acc.ws.w1 + s.x2 * acc.ws.w2 + acc.ws.b) "relu") "relu" = 0 ∧
    (runSample lr "relu" acc s).ws = acc.ws := by
  have hz : ¬ (s.x1 * acc.ws.w1 + s.x2 * acc.ws.w2 + acc.ws.b > 0) := not_lt.mpr h
  have hd : activationDerivative (s.x1 * acc.ws.w1 + s.x2 * acc.ws.w2 + acc.ws.b)
      (activationForward (s.x1 * acc.ws.w1 + s.x2 * acc.ws.w2 + acc.ws.b) "relu") "relu" = 0 := by
    rw [show activationDerivative (s.x1 * acc.ws.w1 + s.x2 * acc.ws.w2 + acc.ws.b)
      (activationForward (s.x1 * acc.ws.w1 + s.x2 * acc.ws.w2 + acc.ws.b) "relu") "relu" =
      (if s.x1 * acc.ws.w1 + s.x2 * acc.ws.w2 + acc.ws.b > 0 then (1 : ℝ) else 0) from rfl]
    rw [if_neg hz]
  refine ⟨hd, ?_⟩
  show (⟨⟨acc.ws.w1 + lr * ((s.y - activationForward (s.x1 * acc.ws.w1 + s.x2 * acc.ws.w2 + acc.ws.b) "relu") *
      activationDerivative (s.x1 * acc.ws.w1 + s.x2 * acc.ws.w2 + acc.ws.b)
        (activationForward (s.x1 * acc.ws.w1 + s.x2 * acc.ws.w2 + acc.ws.b) "relu") "relu") * s.x1,
    acc.ws.w2 + lr * ((s.y - activationForward (s.x1 * acc.ws.w1 + s.x2 * acc.ws.w2 + acc.ws.b) "relu") *
      activationDerivative (s.x1 * acc.ws.w1 + s.x2 * acc.ws.w2 + acc.ws.b)
        (activationForward (s.x1 * acc.ws.w1 + s.x2 * acc.ws.w2 + acc.ws.b) "relu") "relu") * s.x2,
    acc.ws.b + lr * ((s.y - activationForward (s.x1 * acc.ws.w1 + s.x2 * acc.ws.w2 + acc.ws.b) "relu") *
      activationDerivative (s.x1 * acc.ws.w1 + s.x2 * acc.ws.w2 + acc.ws.b)
        (activationForward (s.x1 * acc.ws.w1 + s.x2 * acc.ws.w2 + acc.ws.b) "relu") "relu")⟩,
    acc.totalError + (s.y - activationForward (s.x1 * acc.ws.w1 + s.x2 * acc.ws.w2 + acc.ws.b) "relu") ^ 2,
    s.x1 * acc.ws.w1 + s.x2 * acc.ws.w2 + acc.ws.b,
    activationForward (s.x1 * acc.ws.w1 + s.x2 * acc.ws.w2 + acc.ws.b) "relu"⟩ : EpochAcc).ws = acc.ws
  rw [hd]
  show (⟨acc.ws.w1 + lr * ((s.y - activationForward (s.x1 * acc.ws.w1 + s.x2 * acc.ws.w2 + acc.ws.b) "relu") * 0) * s.x1,
    acc.ws.w2 + lr * ((s.y - activationForward (s.x1 * acc.ws.w1 + s.x2 * acc.ws.w2 + acc.ws.b) "relu") * 0) * s.x2,
    acc.ws.b + lr * ((s.y - activationForward (s.x1 * acc.ws.w1 + s.x2 * acc.ws.w2 + acc.ws.b) "relu") * 0)⟩ : LoopState) = acc.ws
  simp only [mul_zero, zero_mul, add_zero]

/-- C8 witness: a concrete relu sample with z = -1 contributes a zero
update. -/
theorem claim8_relu_zero_gradient_check :
    activationDerivative ((0 : ℝ) * 0 + 0 * 0 + -1)
      (activationForward ((0 : ℝ) * 0 + 0 * 0 + -1) "relu") "relu" = 0 ∧
    (runSample 1 "relu" ⟨⟨0, 0, -1⟩, 0, 0, 0⟩ ⟨0, 0, 0⟩).ws = ⟨0, 0, -1⟩ :=
  claim8_relu_zero_gradient 1 ⟨⟨0, 0, -1⟩, 0, 0, 0⟩ ⟨0, 0, 0⟩ (by norm_num)

/-- C9: after the epoch loop, each trainer evaluates the model once on its
fixed held-out input — (3.5, 12) for sales, (12, 3) for satisfaction — so
the returned prediction is the activation of w1*xt1 + w2*xt2 + b at the
returned final weights and bias; with sigmoid the prediction lies in
[0, 1]. -/
theorem claim9_heldout_prediction :
    (∀ (o : Sales.Options) (amb : ℕ → ℝ),
      (Sales.trainSales o amb).prediction =
        sigmoid (3.5 * (Sales.finalState o amb).w1 + 12 * (Sales.finalState o amb).w2 +
          (Sales.finalState o amb).b) ∧
      (Sales.trainSales o amb).weights =
        [(Sales.finalState o amb).w1, (Sales.finalState o amb).w2] ∧
      (Sales.trainSales o amb).bias = (Sales.finalState o amb).b ∧
      0 ≤ (Sales.trainSales o amb).prediction ∧ (Sales.trainSales o amb).prediction ≤ 1) ∧
    (∀ (o : SatOld.Options) (m : MathRandomImpl),
      (SatOld.trainSatisfaction o m).1.prediction =
        sigmoid (12 * (SatOld.finalState o m).w1 + 3 * (SatOld.finalState o m).w2 +
          (SatOld.finalState o m).b) ∧
      (SatOld.trainSatisfaction o m).1.weights =
        [(SatOld.finalState o m).w1, (SatOld.finalState o m).w2] ∧
      (SatOld.trainSatisfaction o m).1.bias = (SatOld.finalState o m).b ∧
      0 ≤ (SatOld.trainSatisfaction o m).1.prediction ∧
      (SatOld.trainSatisfaction o m).1.prediction ≤ 1) ∧
    (∀ (o : SatLab.Options) (amb : ℕ → ℝ),
      (SatLab.trainSatisfaction o amb).prediction =
        activationForward (12 * (SatLab.finalState o amb).w1 +
          3 * (SatLab.finalState o amb).w2 + (SatLab.finalState o amb).b)
          (SatLab.activationOf o) ∧
      (SatLab.trainSatisfaction o amb).weights =
        [(SatLab.finalState o amb).w1, (SatLab.finalState o amb).w2] ∧
      (SatLab.trainSatisfaction o amb).bias = (SatLab.finalState o amb).b ∧
      (SatLab.activationOf o = "sigmoid" →
        0 ≤ (SatLab.trainSatisfaction o amb).prediction ∧
        (SatLab.trainSatisfaction o amb).prediction ≤ 1)) := by
  refine ⟨?_, ?_, ?_⟩
  · intro o amb
    refine ⟨sales_prediction_eq o amb, sales_weights_eq o amb, sales_bias_eq o amb, ?_, ?_⟩
    · rw [sales_prediction_eq o amb]
      exact sigmoid_nonneg _
    · rw [sales_prediction_eq o amb]
      exact sigmoid_le_one _
  · intro o m
    refine ⟨satOld_prediction_eq o m, satOld_weights_eq o m, satOld_bias_eq o m, ?_, ?_⟩
    · rw [satOld_prediction_eq o m]
      exact sigmoid_nonneg _
    · rw [satOld_prediction_eq o m]
      exact sigmoid_le_one _
  · intro o amb
    refine ⟨satLab_prediction_eq o amb, satLab_weights_eq o amb, satLab_bias_eq o amb, ?_⟩
    intro hact
    rw [satLab_prediction_eq o amb, hact]
    rw [show ∀ x : ℝ, activationForward x "sigmoid" = sigmoid x from fun x => rfl]
    exact ⟨sigmoid_nonneg _, sigmoid_le_one _⟩

/-- C9 witness: the activation-enabled satisfaction trainer with the
default (omitted) activation produces a prediction in [0, 1]. -/
theorem claim9_heldout_prediction_check :
    0 ≤ (SatLab.trainSatisfaction ⟨none, none, none, some 2, none⟩ (fun _ => 0)).prediction ∧
    (SatLab.trainSatisfaction ⟨none, none, none, some 2, none⟩ (fun _ => 0)).prediction ≤ 1 :=
  (claim9_heldout_prediction.2.2 ⟨none, none, none, some 2, none⟩ (fun _ => 0)).2.2.2 rfl

/-- C10: in both snapshot-carrying trainers the history entry at epoch 0
records the model state reached after all of epoch 0's per-sample updates
(the snapshot is the epoch-0 accumulator, i.e. one full epoch step applied
to the RNG-initialised state), not the freshly initialised values. -/
theorem claim10_epoch0_snapshot :
    (∀ (o : Sales.Options) (amb : ℕ → ℝ),
      (Sales.trainSales o amb).history.head? =
        some { epoch := 0, error := (Sales.accAt o amb 0).totalError / 6,
               weights := some [(Sales.accAt o amb 0).ws.w1, (Sales.accAt o amb 0).ws.w2],
               bias := some (Sales.accAt o amb 0).ws.b,
               z := some (Sales.accAt o amb 0).lastZ,
               yHat := some (Sales.accAt o amb 0).lastYHat } ∧
      Sales.accAt o amb 0 = Sales.step o (Sales.init o amb)) ∧
    (∀ (o : SatLab.Options) (amb : ℕ → ℝ),
      (SatLab.trainSatisfaction o amb).history.head? =
        some { epoch := 0, error := (SatLab.accAt o amb 0).totalError / 5,
               weights := some [(SatLab.accAt o amb 0).ws.w1, (SatLab.accAt o amb 0).ws.w2],
               bias := some (SatLab.accAt o amb 0).ws.b,
               z := some (SatLab.accAt o amb 0).lastZ,
               yHat := some (SatLab.accAt o amb 0).lastYHat } ∧
      SatLab.accAt o amb 0 = SatLab.step o (SatLab.init o amb)) := by
  constructor
  · intro o amb
    refine ⟨?_, rfl⟩
    rw [sales_history_eq, List.head?_map,
      head_filter_range_mod (Sales.logEveryOf o) (Sales.epochsOf o) (sales_epochsOf_pos o)]
    rfl
  · intro o amb
    refine ⟨?_, rfl⟩
    rw [satLab_history_eq, List.head?_map,
      head_filter_range_mod (SatLab.logEveryOf o) (SatLab.epochsOf o) (satLab_epochsOf_pos o)]
    rfl

theorem sales_train_congr (o1 o2 : Sales.Options) (amb : ℕ → ℝ)
    (h1 : Sales.learningRateOf o1 = Sales.learningRateOf o2)
    (h2 : Sales.epochsOf o1 = Sales.epochsOf o2)
    (h3 : Sales.logEveryOf o1 = Sales.logEveryOf o2)
    (h4 : Sales.init o1 amb = Sales.init o2 amb) :
    Sales.trainSales o1 amb = Sales.trainSales o2 amb := by
  rw [Sales.trainSales, Sales.trainSales, Sales.step, Sales.step, h1, h2, h3, h4]

theorem satOld_train_congr (o1 o2 : SatOld.Options) (m : MathRandomImpl)
    (h1 : SatOld.learningRateOf o1 = SatOld.learningRateOf o2)
    (h2 : SatOld.loopCountOf o1 = SatOld.loopCountOf o2)
    (h3 : SatOld.logEveryQOf o1 = SatOld.logEveryQOf o2)
    (h4 : SatOld.init o1 m = SatOld.init o2 m)
    (h5 : SatOld.postRandom o1 m = SatOld.postRandom o2 m) :
    SatOld.trainSatisfaction o1 m = SatOld.trainSatisfaction o2 m := by
  rw [SatOld.trainSatisfaction, SatOld.trainSatisfaction, SatOld.step, SatOld.step,
    h1, h2, h3, h4, h5]

/-- C4 counterexample: with epochs = 1 and logEvery = 1 the sales trainer
pushes a single snapshot (at epoch 0), while the claimed bound
floor(epochs / logEvery) + 1 = 2. -/
theorem claim4_history_length_cex :
    (Sales.trainSales ⟨none, some (.fin 1), some (.fin 1), some 1⟩
      (fun _ => 0)).history.length ≠ 1 / 1 + 1 := by
  have h : (Sales.trainSales ⟨none, some (.fin 1), some (.fin 1), some 1⟩
      (fun _ => 0)).history.length = 1 := rfl
  rw [h]
  decide

/-- C4 (amended): the history length is floor((epochs - 1) / logEvery) + 1
(equivalently ceil(epochs / logEvery)); the first entry is at epoch 0 and
every recorded epoch is a multiple of logEvery.  This holds for the sales
and activation-enabled satisfaction trainers with their clamped parameters,
and for the old satisfaction trainer whenever its raw epochs and logEvery
are integers ≥ 1. -/
theorem claim4_history_shape :
    (∀ (o : Sales.Options) (amb : ℕ → ℝ),
      (Sales.trainSales o amb).history.length =
        (Sales.epochsOf o - 1) / Sales.logEveryOf o + 1 ∧
      (Sales.trainSales o amb).history.map TrainingPoint.epoch =
        (List.range (Sales.epochsOf o)).filter (fun k => k % Sales.logEveryOf o == 0) ∧
      ((Sales.trainSales o amb).history.map TrainingPoint.epoch).head? = some 0 ∧
      ∀ p ∈ (Sales.trainSales o amb).history, Sales.logEveryOf o ∣ p.epoch) ∧
    (∀ (o : SatLab.Options) (amb : ℕ → ℝ),
      (SatLab.trainSatisfaction o amb).history.length =
        (SatLab.epochsOf o - 1) / SatLab.logEveryOf o + 1 ∧
      (SatLab.trainSatisfaction o amb).history.map TrainingPoint.epoch =
        (List.range (SatLab.epochsOf o)).filter (fun k => k % SatLab.logEveryOf o == 0) ∧
      ((SatLab.trainSatisfaction o amb).history.map TrainingPoint.epoch).head? = some 0 ∧
      ∀ p ∈ (SatLab.trainSatisfaction o amb).history, SatLab.logEveryOf o ∣ p.epoch) ∧
    (∀ (o : SatOld.Options) (m : MathRandomImpl) (E L : ℕ), 1 ≤ E → 1 ≤ L →
      o.epochs = some ((E : ℕ) : ℚ) → o.logEvery = some ((L : ℕ) : ℚ) →
      (SatOld.trainSatisfaction o m).1.history.length = (E - 1) / L + 1 ∧
      (SatOld.trainSatisfaction o m).1.history.map TrainingPoint.epoch =
        (List.range E).filter (fun k => k % L == 0) ∧
      ((SatOld.trainSatisfaction o m).1.history.map TrainingPoint.epoch).head? = some 0 ∧
      ∀ p ∈ (SatOld.trainSatisfaction o m).1.history, L ∣ p.epoch) := by
  refine ⟨?_, ?_, ?_⟩
  · intro o amb
    have hmap : (Sales.trainSales o amb).history.map TrainingPoint.epoch =
        (List.range (Sales.epochsOf o)).filter (fun k => k % Sales.logEveryOf o == 0) := by
      rw [sales_history_eq, List.map_map]
      rw [show (TrainingPoint.epoch ∘ fun k => Sales.mkPoint k (Sales.accAt o amb k)) =
        (fun k : ℕ => k) from funext fun k => rfl]
      exact List.map_id' _
    refine ⟨?_, hmap, ?_, ?_⟩
    · rw [sales_history_eq, List.length_map,
        length_filter_range_mod (Sales.logEveryOf o) (Sales.epochsOf o) (sales_epochsOf_pos o)]
    · rw [hmap]
      exact head_filter_range_mod _ _ (sales_epochsOf_pos o)
    · intro p hp
      rw [sales_history_eq] at hp
      obtain ⟨k, hk, rfl⟩ := List.mem_map.mp hp
      have hcond := (List.mem_filter.mp hk).2
      have : k % Sales.logEveryOf o = 0 := by simpa using hcond
      exact Nat.dvd_iff_mod_eq_zero.mpr this
  · intro o amb
    have hmap : (SatLab.trainSatisfaction o amb).history.map TrainingPoint.epoch =
        (List.range (SatLab.epochsOf o)).filter (fun k => k % SatLab.logEveryOf o == 0) := by
      rw [satLab_history_eq, List.map_map]
      rw [show (TrainingPoint.epoch ∘ fun k => SatLab.mkPoint k (SatLab.accAt o amb k)) =
        (fun k : ℕ => k) from funext fun k => rfl]
      exact List.map_id' _
    refine ⟨?_, hmap, ?_, ?_⟩
    · rw [satLab_history_eq, List.length_map,
        length_filter_range_mod (SatLab.logEveryOf o) (SatLab.epochsOf o) (satLab_epochsOf_pos o)]
    · rw [hmap]
      exact head_filter_range_mod _ _ (satLab_epochsOf_pos o)
    · intro p hp
      rw [satLab_history_eq] at hp
      obtain ⟨k, hk, rfl⟩ := List.mem_map.mp hp
      have hcond := (List.mem_filter.mp hk).2
      have : k % SatLab.logEveryOf o = 0 := by simpa using hcond
      exact Nat.dvd_iff_mod_eq_zero.mpr this
  · intro o m E L hE1 hL1 hE hL
    have hcnt := satOld_loopCount_natCast o E hE
    have hhist := satOld_history_eq o m L hL1 hL
    rw [hcnt] at hhist
    have hmap : (SatOld.trainSatisfaction o m).1.history.map TrainingPoint.epoch =
        (List.range E).filter (fun k => k % L == 0) := by
      rw [hhist, List.map_map]
      rw [show (TrainingPoint.epoch ∘ fun k => SatOld.mkPoint k (SatOld.accAt o m k)) =
        (fun k : ℕ => k) from funext fun k => rfl]
      exact List.map_id' _
    refine ⟨?_, hmap, ?_, ?_⟩
    · rw [hhist, List.length_map, length_filter_range_mod L E hE1]
    · rw [hmap]
      exact head_filter_range_mod _ _ hE1
    · intro p hp
      rw [hhist] at hp
      obtain ⟨k, hk, rfl⟩ := List.mem_map.mp hp
      have hcond := (List.mem_filter.mp hk).2
      have : k % L = 0 := by simpa using hcond
      exact Nat.dvd_iff_mod_eq_zero.mpr this

/-- C4 witness: the old satisfaction trainer with epochs = 2, logEvery = 1
records 2 snapshots, the first at epoch 0, all at multiples of 1. -/
theorem claim4_history_shape_check :
    (SatOld.trainSatisfaction ⟨none, some ((2 : ℕ) : ℚ), some ((1 : ℕ) : ℚ), some 7⟩
      (MathRandomImpl.native (fun _ => 0) 0)).1.history.length = (2 - 1) / 1 + 1 ∧
    (SatOld.trainSatisfaction ⟨none, some ((2 : ℕ) : ℚ), some ((1 : ℕ) : ℚ), some 7⟩
      (MathRandomImpl.native (fun _ => 0) 0)).1.history.map TrainingPoint.epoch =
      (List.range 2).filter (fun k => k % 1 == 0) ∧
    ((SatOld.trainSatisfaction ⟨none, some ((2 : ℕ) : ℚ), some ((1 : ℕ) : ℚ), some 7⟩
      (MathRandomImpl.native (fun _ => 0) 0)).1.history.map TrainingPoint.epoch).head? =
      some 0 ∧
    ∀ p ∈ (SatOld.trainSatisfaction ⟨none, some ((2 : ℕ) : ℚ), some ((1 : ℕ) : ℚ), some 7⟩
      (MathRandomImpl.native (fun _ => 0) 0)).1.history, 1 ∣ p.epoch :=
  claim4_history_shape.2.2 ⟨none, some ((2 : ℕ) : ℚ), some ((1 : ℕ) : ℚ), some 7⟩
    (MathRandomImpl.native (fun _ => 0) 0) 2 1 (by decide) (by decide) rfl rfl

/-- C5 counterexample: the old satisfaction trainer applies no epoch
clamping — with all other options fixed (seed 1, logEvery 1), epochs = 0
runs no epoch (empty history) while epochs = 1 runs one, so the two calls
do not return the same result. -/
theorem claim5_clamping_cex :
    (SatOld.trainSatisfaction ⟨none, some 0, some ((1 : ℕ) : ℚ), some 1⟩
      (MathRandomImpl.native (fun _ => 0) 0)).1 ≠
    (SatOld.trainSatisfaction ⟨none, some ((1 : ℕ) : ℚ), some ((1 : ℕ) : ℚ), some 1⟩
      (MathRandomImpl.native (fun _ => 0) 0)).1 := by
  intro h
  have h0 : (SatOld.trainSatisfaction ⟨none, some 0, some ((1 : ℕ) : ℚ), some 1⟩
      (MathRandomImpl.native (fun _ => 0) 0)).1.history.length = 0 := by
    have hc : SatOld.loopCountOf ⟨none, some 0, some ((1 : ℕ) : ℚ), some 1⟩ = 0 := by
      rw [SatOld.loopCountOf, SatOld.epochsQOf, Option.getD_some]
      simp
    rw [satOld_history_eq _ _ 1 (le_refl 1) rfl, hc]
    rfl
  have h1 : (SatOld.trainSatisfaction ⟨none, some ((1 : ℕ) : ℚ), some ((1 : ℕ) : ℚ), some 1⟩
      (MathRandomImpl.native (fun _ => 0) 0)).1.history.length = 1 := by
    rw [satOld_history_eq _ _ 1 (le_refl 1) rfl, satOld_loopCount_natCast _ 1 rfl]
    rfl
  rw [h, h1] at h0
  exact absurd h0 (by decide)

/-- C5 (amended): the sales trainer normalises as the claim states — a
non-finite or non-positive learningRate behaves as the default 0.01,
epochs = 0 behaves as epochs = 1, an omitted epochs as 2000, and logEvery
is floored and clamped to ≥ 1 with default 100.  The old satisfaction
trainer, by contrast, applies no normalisation; its omitted-epochs default
is 10000, not 2000. -/
theorem claim5_soft_validation :
    (∀ (j : JsNum) (e l : Option JsNum) (s : Option ℤ) (amb : ℕ → ℝ),
      j.isPosFinite = false →
      Sales.trainSales ⟨some j, e, l, s⟩ amb =
        Sales.trainSales ⟨some (.fin (1 / 100)), e, l, s⟩ amb) ∧
    (∀ (lr l : Option JsNum) (s : Option ℤ) (amb : ℕ → ℝ),
      Sales.trainSales ⟨lr, some (.fin 0), l, s⟩ amb =
        Sales.trainSales ⟨lr, some (.fin 1), l, s⟩ amb) ∧
    (∀ (lr l : Option JsNum) (s : Option ℤ) (amb : ℕ → ℝ),
      Sales.trainSales ⟨lr, none, l, s⟩ amb =
        Sales.trainSales ⟨lr, some (.fin 2000), l, s⟩ amb) ∧
    (∀ (lr e : Option JsNum) (s : Option ℤ) (amb : ℕ → ℝ),
      Sales.trainSales ⟨lr, e, none, s⟩ amb =
        Sales.trainSales ⟨lr, e, some (.fin 100), s⟩ amb) ∧
    (∀ (q : ℚ) (lr e : Option JsNum) (s : Option ℤ) (amb : ℕ → ℝ),
      Sales.trainSales ⟨lr, e, some (.fin q), s⟩ amb =
        Sales.trainSales ⟨lr, e, some (.fin ((max 1 ⌊q⌋ : ℤ) : ℚ)), s⟩ amb) ∧
    (∀ (lr l : Option ℚ) (s : Option ℤ) (m : MathRandomImpl),
      SatOld.trainSatisfaction ⟨lr, none, l, s⟩ m =
        SatOld.trainSatisfaction ⟨lr, some 10000, l, s⟩ m) := by
  refine ⟨?_, ?_, ?_, ?_, ?_, ?_⟩
  · intro j e l s amb hj
    apply sales_train_congr
    · cases j with
      | fin q =>
          have hq : ¬ (0 < q) := by
            intro hc
            rw [JsNum.isPosFinite] at hj
            simp [hc] at hj
          show (if 0 < q then q else 1 / 100) = (if 0 < (1 / 100 : ℚ) then (1 / 100 : ℚ) else 1 / 100)
          rw [if_neg hq, ite_self]
      | nan =>
          show (1 / 100 : ℚ) = (if 0 < (1 / 100 : ℚ) then (1 / 100 : ℚ) else 1 / 100)
          exact (ite_self _).symm
      | posInf =>
          show (1 / 100 : ℚ) = (if 0 < (1 / 100 : ℚ) then (1 / 100 : ℚ) else 1 / 100)
          exact (ite_self _).symm
      | negInf =>
          show (1 / 100 : ℚ) = (if 0 < (1 / 100 : ℚ) then (1 / 100 : ℚ) else 1 / 100)
          exact (ite_self _).symm
    · rfl
    · rfl
    · rfl
  · intro lr l s amb
    apply sales_train_congr
    · rfl
    · show (max 1 ⌊(0 : ℚ)⌋).toNat = (max 1 ⌊(1 : ℚ)⌋).toNat
      norm_num
    · rfl
    · rfl
  · intro lr l s amb
    apply sales_train_congr
    · rfl
    · show Sales.epochsOf ⟨lr, none, l, s⟩ = Sales.epochsOf ⟨lr, some (.fin 2000), l, s⟩
      rw [Sales.epochsOf, Sales.epochsOf]
      show (max 1 ⌊(2000 : ℚ)⌋).toNat = (max 1 ⌊(2000 : ℚ)⌋).toNat
      rfl
    · rfl
    · rfl
  · intro lr e s amb
    apply sales_train_congr
    · rfl
    · rfl
    · show Sales.logEveryOf ⟨lr, e, none, s⟩ = Sales.logEveryOf ⟨lr, e, some (.fin 100), s⟩
      rw [Sales.logEveryOf, Sales.logEveryOf]
      show (max 1 ⌊(100 : ℚ)⌋).toNat = (max 1 ⌊(100 : ℚ)⌋).toNat
      rfl
    · rfl
  · intro q lr e s amb
    apply sales_train_congr
    · rfl
    · rfl
    · show (max 1 ⌊q⌋).toNat = (max 1 ⌊((max 1 ⌊q⌋ : ℤ) : ℚ)⌋).toNat
      rw [Int.floor_intCast, ← max_assoc, max_self]
    · rfl
  · intro lr l s m
    apply satOld_train_congr
    · rfl
    · rfl
    · rfl
    · rfl
    · rfl

/-- C5 witness: a NaN learning rate behaves as the default 0.01 in the
sales trainer. -/
theorem claim5_soft_validation_check :
    Sales.trainSales ⟨some JsNum.nan, none, none, some 3⟩ (fun _ => 0) =
      Sales.trainSales ⟨some (.fin (1 / 100)), none, none, some 3⟩ (fun _ => 0) :=
  claim5_soft_validation.1 JsNum.nan none none (some 3) (fun _ => 0) rfl

/-- C6 counterexample: a history entry of the old satisfaction trainer
carries no weights at all (its only fields are epoch and error), against
the claim that every entry of both trainers contains a copy of the current
weights, bias, z and yHat. -/
theorem claim6_snapshot_cex :
    ((SatOld.trainSatisfaction ⟨none, some ((1 : ℕ) : ℚ), some ((1 : ℕ) : ℚ), some 3⟩
        (MathRandomImpl.native (fun _ => 0) 0)).1.history.map TrainingPoint.weights) =
      [none] := by
  rw [satOld_history_eq _ _ 1 (le_refl 1) rfl, satOld_loopCount_natCast _ 1 rfl]
  rfl

/-- C6 (amended): each snapshot of the sales and activation-enabled
satisfaction trainers carries the epoch, the mean squared error
(totalError over the sample count), a copy of the weights, the bias, and
the z / yHat that the epoch accumulator took from the last sample
processed in that epoch (the fold ends with the dataset's last sample);
the old satisfaction trainer's snapshots carry only epoch and error. -/
theorem claim6_snapshot_contents :
    (∀ (o : Sales.Options) (amb : ℕ → ℝ),
      (Sales.trainSales o amb).history =
        ((List.range (Sales.epochsOf o)).filter (fun k => k % Sales.logEveryOf o == 0)).map
          (fun k => { epoch := k, error := (Sales.accAt o amb k).totalError / 6,
                      weights := some [(Sales.accAt o amb k).ws.w1, (Sales.accAt o amb k).ws.w2],
                      bias := some (Sales.accAt o amb k).ws.b,
                      z := some (Sales.accAt o amb k).lastZ,
                      yHat := some (Sales.accAt o amb k).lastYHat })) ∧
    (∀ (o : SatLab.Options) (amb : ℕ → ℝ),
      (SatLab.trainSatisfaction o amb).history =
        ((List.range (SatLab.epochsOf o)).filter (fun k => k % SatLab.logEveryOf o == 0)).map
          (fun k => { epoch := k, error := (SatLab.accAt o amb k).totalError / 5,
                      weights := some [(SatLab.accAt o amb k).ws.w1, (SatLab.accAt o amb k).ws.w2],
                      bias := some (SatLab.accAt o amb k).ws.b,
                      z := some (SatLab.accAt o amb k).lastZ,
                      yHat := some (SatLab.accAt o amb k).lastYHat })) ∧
    (∀ (lr : ℝ) (act : String) (st : LoopState),
      runEpoch lr act salesX st =
        runSample lr act (List.foldl (runSample lr act) ⟨st, 0, 0, 0⟩ salesX.dropLast)
          ⟨0.5, 3, 0⟩) ∧
    (∀ (lr : ℝ) (act : String) (st : LoopState),
      runEpoch lr act satisfactionX st =
        runSample lr act (List.foldl (runSample lr act) ⟨st, 0, 0, 0⟩ satisfactionX.dropLast)
          ⟨5, 4, 1⟩) ∧
    (∀ (o : SatOld.Options) (m : MathRandomImpl),
      ((SatOld.trainSatisfaction o m).1.history.all
        (fun p => p.weights.isNone && p.bias.isNone && p.z.isNone && p.yHat.isNone)) = true) := by
  refine ⟨?_, ?_, fun _ _ _ => rfl, fun _ _ _ => rfl, ?_⟩
  · intro o amb
    rw [sales_history_eq]
    rfl
  · intro o amb
    rw [satLab_history_eq]
    rfl
  · intro o m
    have h : (SatOld.trainSatisfaction o m).1.history =
        (trainLoop (SatOld.step o) SatOld.mkPoint
          (fun e => jsModEqZero e (SatOld.logEveryQOf o)) 0 (SatOld.loopCountOf o)
          (SatOld.init o m)).2 := rfl
    rw [h, trainLoop_snd]
    simp only [List.all_eq_true, List.mem_map]
    rintro p ⟨k, hk, rfl⟩
    rfl
